import Mathlib

/-!
Verification development for the train-ticket finder web application
(src/js: utils.js, config.js, api.js, search.js, seat_allocation.js).

The JavaScript source is shallowly embedded: pure functions become Lean
functions, stateful methods become explicit state-passing functions, the
network is an oracle parameter describing the outcome of each fetch, and
observable side effects (flag writes, sleeps, network calls, UI
notifications) are recorded in an event trace.  JavaScript numbers that
the code only ever treats as integers are modelled as Int; the source of
randomness (Math.random) is a rational parameter in [0, 1); optional /
possibly-missing JSON fields are Option; JavaScript truthiness on numbers
and strings is modelled explicitly (0 and the empty string are falsy).

Locale-dependent time formatting (Date.toLocaleTimeString inside
formatTime) is abstracted as a function parameter fmt from timestamps to
formatted HH:MM strings; every property proved here holds for an
arbitrary such function.
-/

/-- JavaScript `x || d` for a possibly-missing number field: 0, null and
undefined are falsy and select the default. -/
def jsNumOr (o : Option Int) (dflt : Int) : Int :=
  match o with
  | none => dflt
  | some v => if v = 0 then dflt else v

/-- JavaScript `x || d` for a possibly-missing string field returning a
plain string: the empty string, null and undefined are falsy. -/
def jsOrStr (o : Option String) (dflt : String) : String :=
  match o with
  | none => dflt
  | some s => if s = "" then dflt else s

/-- JavaScript string truthiness test for a possibly-missing string. -/
def jsTruthyStr (o : Option String) : Bool :=
  match o with
  | none => false
  | some s => decide (s ≠ "")

/-- JavaScript `a || b` where both operands are possibly-missing strings
and the result may itself be undefined. -/
def jsOrOptStr (a b : Option String) : Option String :=
  if jsTruthyStr a then a else b

/-- JavaScript template interpolation of a possibly-undefined string
value: undefined renders as the text undefined. -/
def jsShowOptStr (o : Option String) : String := o.getD "undefined"

/-!  utils.js  -/

/-- utils.js getRandomDelay: Math.floor(min + Math.random() * (max - min)).
The Math.random() outcome is the parameter rnd, a rational in [0, 1). -/
def getRandomDelay (min max : Int) (rnd : ℚ) : Int :=
  ⌊(min : ℚ) + rnd * ((max : ℚ) - (min : ℚ))⌋

/-- Lexicographic comparison of character lists, the order JavaScript
string comparison operators use (code-unit order; identical to code
point order on the basic multilingual plane). -/
def charListLe : List Char → List Char → Bool
  | [], _ => true
  | _ :: _, [] => false
  | a :: as, b :: bs =>
    if a < b then true
    else if b < a then false
    else charListLe as bs

/-- The JavaScript string comparison a <= b. -/
def jsStrLe (a b : String) : Bool := charListLe a.data b.data

/-- utils.js isInTimeRange: formats the train departure timestamp with
formatTime (abstracted as fmt) and compares lexicographically against the
HH:MM bounds, both inclusive. -/
def isInTimeRange (fmt : Int → String) (trainTime : Int)
    (startTime endTime : String) : Bool :=
  let trainHourMin := fmt trainTime
  jsStrLe startTime trainHourMin && jsStrLe trainHourMin endTime

theorem charListLe_iff (as bs : List Char) :
    charListLe as bs = true ↔ ¬ List.Lex (· < ·) bs as := by
  induction as generalizing bs with
  | nil =>
    cases bs with
    | nil => simp only [charListLe, true_iff]; intro h; cases h
    | cons b bs => simp only [charListLe, true_iff]; intro h; cases h
  | cons a as ih =>
    cases bs with
    | nil =>
      simp only [charListLe, Bool.false_eq_true, false_iff, not_not]
      exact List.Lex.nil
    | cons b bs =>
      simp only [charListLe]
      by_cases hab : a < b
      · simp only [if_pos hab, true_iff]
        intro h
        cases h with
        | cons h => exact absurd hab (lt_irrefl _)
        | rel h => exact absurd hab (asymm h)
      · rw [if_neg hab]
        by_cases hba : b < a
        · simp only [if_pos hba, Bool.false_eq_true, false_iff, not_not]
          exact List.Lex.rel hba
        · rw [if_neg hba, ih]
          have hab' : a = b := le_antisymm (not_lt.mp hba) (not_lt.mp hab)
          subst hab'
          constructor
          · intro h hlt
            cases hlt with
            | cons h2 => exact h h2
            | rel h2 => exact absurd h2 (lt_irrefl _)
          · intro h hlt
            exact h (List.Lex.cons hlt)

/-- The executable comparison agrees with the Mathlib lexicographic
order on String. -/
theorem jsStrLe_iff_le (a b : String) : jsStrLe a b = true ↔ a ≤ b := by
  rw [String.le_iff_toList_le, ← not_lt, jsStrLe, charListLe_iff]
  exact not_congr Iff.rfl

/-- The splitting of a character list at every dash, mirroring the
JavaScript String.prototype.split with separator dash: always returns at
least one (possibly empty) part. -/
def splitOnDash : List Char → List (List Char)
  | [] => [[]]
  | c :: rest =>
    let ps := splitOnDash rest
    if c = '-' then [] :: ps
    else (c :: ps.headD []) :: ps.tail

/-- utils.js convertDateToAPI: converts YYYY-MM-DD to DD-MM-YYYY.  The
destructuring const [year, month, day] = dateString.split(a dash) takes
the first three parts; a missing part is undefined and renders as the
text undefined in the template literal. -/
def convertDateToAPI (dateString : String) : String :=
  if dateString = "" then ""
  else
    let parts := splitOnDash dateString.data
    let year := parts.getD 0 "undefined".data
    let month := parts.getD 1 "undefined".data
    let day := parts.getD 2 "undefined".data
    String.mk day ++ "-" ++ String.mk month ++ "-" ++ String.mk year

/-- utils.js convertDateFromAPI: converts DD-MM-YYYY back to YYYY-MM-DD. -/
def convertDateFromAPI (dateString : String) : String :=
  if dateString = "" then ""
  else
    let parts := splitOnDash dateString.data
    let day := parts.getD 0 "undefined".data
    let month := parts.getD 1 "undefined".data
    let year := parts.getD 2 "undefined".data
    String.mk year ++ "-" ++ String.mk month ++ "-" ++ String.mk day

/-- A well-formed HTML5 date string YYYY-MM-DD: exactly three dash-free
parts of lengths 4, 2 and 2, all digits. -/
def isWellFormedDate (s : String) : Bool :=
  match splitOnDash s.data with
  | [y, m, d] =>
    y.length == 4 && m.length == 2 && d.length == 2 &&
    y.all Char.isDigit && m.all Char.isDigit && d.all Char.isDigit
  | _ => false

/-- Joining parts back with dashes, the inverse view of splitOnDash. -/
def joinDash : List (List Char) → List Char
  | [] => []
  | [p] => p
  | p :: q :: ps => p ++ '-' :: joinDash (q :: ps)

theorem splitOnDash_ne_nil (l : List Char) : splitOnDash l ≠ [] := by
  cases l with
  | nil => simp [splitOnDash]
  | cons c rest => by_cases hc : c = '-' <;> simp [splitOnDash, hc]

theorem joinDash_splitOnDash (l : List Char) : joinDash (splitOnDash l) = l := by
  induction l with
  | nil => rfl
  | cons c rest ih =>
    obtain ⟨q, qs, hsp⟩ := List.exists_cons_of_ne_nil (splitOnDash_ne_nil rest)
    rw [hsp] at ih
    by_cases hc : c = '-'
    · subst hc
      simp only [splitOnDash, hsp, if_pos rfl, joinDash]
      cases qs <;> simpa [joinDash] using ih
    · simp only [splitOnDash, hsp, if_neg hc, List.headD_cons, List.tail_cons]
      cases qs <;> simpa [joinDash] using ih

theorem splitOnDash_noDash (l : List Char) (h : ∀ c ∈ l, c ≠ '-') :
    splitOnDash l = [l] := by
  induction l with
  | nil => rfl
  | cons c rest ih =>
    have hc : c ≠ '-' := h c (by simp)
    have hrest : ∀ x ∈ rest, x ≠ '-' := fun x hx => h x (by simp [hx])
    simp [splitOnDash, ih hrest, hc]

theorem splitOnDash_append (a b : List Char) (h : ∀ c ∈ a, c ≠ '-') :
    splitOnDash (a ++ '-' :: b) = a :: splitOnDash b := by
  induction a with
  | nil => simp [splitOnDash]
  | cons c rest ih =>
    have hc : c ≠ '-' := h c (by simp)
    have hrest : ∀ x ∈ rest, x ≠ '-' := fun x hx => h x (by simp [hx])
    rw [List.cons_append]
    simp only [splitOnDash, ih hrest]
    simp [hc]

theorem mem_splitOnDash_noDash (l : List Char) :
    ∀ p ∈ splitOnDash l, ∀ c ∈ p, c ≠ '-' := by
  induction l with
  | nil => intro p hp; simp [splitOnDash] at hp; simp [hp]
  | cons c rest ih =>
    intro p hp
    obtain ⟨q, qs, hsp⟩ := List.exists_cons_of_ne_nil (splitOnDash_ne_nil rest)
    rw [hsp] at ih
    by_cases hc : c = '-'
    · rw [show splitOnDash (c :: rest) = [] :: q :: qs by
        simp [splitOnDash, hsp, hc]] at hp
      rcases List.mem_cons.mp hp with hp | hp
      · simp [hp]
      · exact ih p hp
    · rw [show splitOnDash (c :: rest) = (c :: q) :: qs by
        simp [splitOnDash, hsp, hc]] at hp
      rcases List.mem_cons.mp hp with hp | hp
      · intro x hx
        rcases (by simpa [hp] using hx : x = c ∨ x ∈ q) with hx | hx
        · simpa [hx] using hc
        · exact ih q (by simp) x hx
      · exact ih p (by simp [hp])

theorem convertDateToAPI_data (s : String) (y m d : List Char)
    (hsplit : splitOnDash s.data = [y, m, d]) (hne : s ≠ "") :
    (convertDateToAPI s).data = d ++ '-' :: (m ++ '-' :: y) := by
  rw [convertDateToAPI, if_neg hne]
  simp only [hsplit, List.getD_cons_zero, List.getD_cons_succ, String.data_append]
  simp [String.mk]

theorem splitOnDash_three (y m d : List Char)
    (hy : ∀ c ∈ y, c ≠ '-') (hm : ∀ c ∈ m, c ≠ '-') (hd : ∀ c ∈ d, c ≠ '-') :
    splitOnDash (y ++ '-' :: (m ++ '-' :: d)) = [y, m, d] := by
  rw [splitOnDash_append y _ hy, splitOnDash_append m _ hm, splitOnDash_noDash d hd]

/-- C9: converting a well-formed YYYY-MM-DD date with convertDateToAPI
yields DD-MM-YYYY, applying convertDateFromAPI to the result round-trips
back to the original string, and both functions map the empty string to
the empty string. -/
theorem convertDate_roundTrip (s : String) (y m d : List Char)
    (hw : isWellFormedDate s = true) (hsplit : splitOnDash s.data = [y, m, d]) :
    (convertDateToAPI s).data = d ++ '-' :: (m ++ '-' :: y) ∧
    convertDateFromAPI (convertDateToAPI s) = s ∧
    convertDateToAPI "" = "" ∧ convertDateFromAPI "" = "" := by
  have hy : ∀ c ∈ y, c ≠ '-' := fun c hc =>
    mem_splitOnDash_noDash s.data y (by rw [hsplit]; simp) c hc
  have hm : ∀ c ∈ m, c ≠ '-' := fun c hc =>
    mem_splitOnDash_noDash s.data m (by rw [hsplit]; simp) c hc
  have hd : ∀ c ∈ d, c ≠ '-' := fun c hc =>
    mem_splitOnDash_noDash s.data d (by rw [hsplit]; simp) c hc
  have hdata : s.data = y ++ '-' :: (m ++ '-' :: d) := by
    have := joinDash_splitOnDash s.data
    rw [hsplit] at this
    simpa [joinDash] using this.symm
  have hne : s ≠ "" := by
    intro he
    rw [he] at hdata
    simp at hdata
  have hto : (convertDateToAPI s).data = d ++ '-' :: (m ++ '-' :: y) :=
    convertDateToAPI_data s y m d hsplit hne
  refine ⟨hto, ?_, rfl, rfl⟩
  have htne : convertDateToAPI s ≠ "" := by
    intro he
    rw [he] at hto
    simp at hto
  have hsplit2 : splitOnDash (convertDateToAPI s).data = [d, m, y] := by
    rw [hto]
    exact splitOnDash_three d m y hd hm hy
  apply String.ext
  rw [convertDateFromAPI, if_neg htne]
  simp only [hsplit2, List.getD_cons_zero, List.getD_cons_succ, String.data_append, hdata]
  simp [String.mk]

/-- Witness for C9 at the concrete example from the specification. -/
theorem convertDate_roundTrip_witness :
    (convertDateToAPI "2025-03-05").data =
      "05".data ++ '-' :: ("03".data ++ '-' :: "2025".data) ∧
    convertDateFromAPI (convertDateToAPI "2025-03-05") = "2025-03-05" ∧
    convertDateToAPI "2025-03-05" = "05-03-2025" := by
  have h := convertDate_roundTrip "2025-03-05" "2025".data "03".data "05".data
    (by decide) (by decide)
  exact ⟨h.1, h.2.1, by decide⟩

/-!  config.js  -/

/-- One cabin class entry of CONFIG.CABIN_CLASSES. -/
structure CabinClassConfig where
  id : Int
  code : String
  name : String
  displayName : String
deriving DecidableEq

/-- config.js CONFIG.CABIN_CLASSES as an association list in object
insertion order (Object.keys / Object.values order). -/
def CABIN_CLASSES : List (String × CabinClassConfig) :=
  [("ECONOMY", ⟨2, "Y1", "Ekonomi", "Ekonomi Sınıfı"⟩),
   ("BUSINESS", ⟨1, "C", "Business", "Business Sınıfı"⟩),
   ("SLEEPER", ⟨3, "SL", "Yataklı", "Yataklı (Kuşet)"⟩),
   ("COUCHETTE", ⟨6, "CT", "Örtülü Kuşet", "Örtülü Kuşet"⟩),
   ("LOCA", ⟨11, "L", "Loca", "Loca (Özel Kabin)"⟩),
   ("DISABLED", ⟨12, "DSB", "Tekerlekli Sandalye", "Engelli (Tekerlekli Sandalye)"⟩)]

/-- config.js CONFIG.MIN_ANTI_BOT_DELAY. -/
def MIN_ANTI_BOT_DELAY : Int := 3000

/-- config.js CONFIG.MAX_ANTI_BOT_DELAY. -/
def MAX_ANTI_BOT_DELAY : Int := 8000

/-- config.js CONFIG.CHECK_INTERVAL. -/
def CHECK_INTERVAL : Int := 5000

/-- Object.values(CONFIG.CABIN_CLASSES).find(config with matching id). -/
def findCabinConfig (cid : Int) : Option CabinClassConfig :=
  (CABIN_CLASSES.map Prod.snd).find? (fun config => config.id == cid)

/-- Object.keys(CONFIG.CABIN_CLASSES).find(key whose entry has matching
id). -/
def findCabinKey (cid : Int) : Option String :=
  (CABIN_CLASSES.find? (fun kv => kv.2.id == cid)).map Prod.fst

/-!  Availability response data model (the parts of the TCDD JSON that
search.js reads).  Fields the code accesses through optional chaining or
truthiness checks are Option.  -/

/-- The cabinClass reference inside a cabin class availability entry. -/
structure CabinClassRef where
  id : Int
deriving DecidableEq

/-- A price object carrying an optional parsedValue. -/
structure MinPrice where
  parsedValue : Option Int
deriving DecidableEq

/-- One entry of bookingClassAvailabilities. -/
structure BookingClassAvail where
  price : Option MinPrice
deriving DecidableEq

/-- One entry of train.cabinClassAvailabilities. -/
structure CabinClassAvailability where
  cabinClass : Option CabinClassRef
  availabilityCount : Option Int
  minPrice : Option MinPrice
  bookingClassAvailabilities : Option (List BookingClassAvail)
deriving DecidableEq

/-- One route segment of a train; timestamps are opaque values consumed
only by the abstracted formatTime. -/
structure TrainSegment where
  departureTime : Int
  arrivalTime : Int
deriving DecidableEq

/-- One train of the availability response. -/
structure Train where
  id : Int
  commercialName : Option String
  name : Option String
  segments : List TrainSegment
  cabinClassAvailabilities : Option (List CabinClassAvailability)
deriving DecidableEq

/-- One entry of trainLegs[0].trainAvailabilities. -/
structure TrainAvailability where
  trains : Option (List Train)
deriving DecidableEq

/-- One entry of data.trainLegs. -/
structure TrainLeg where
  trainAvailabilities : Option (List TrainAvailability)
deriving DecidableEq

/-- The availability response root. -/
structure AvailabilityData where
  trainLegs : Option (List TrainLeg)
deriving DecidableEq

/-- The price value computed by the price-resolution chain: either a
parsedValue number or the raw minPrice object. -/
inductive PriceVal
  | parsed (v : Int)
  | rawMinPrice (m : MinPrice)
deriving DecidableEq

/-- search.js price resolution inside processTrainAvailability:
minPrice?.parsedValue if truthy, else the minPrice object if present,
else the first bookingClassAvailabilities price parsedValue if truthy,
else null. -/
def resolvePrice (classAvail : CabinClassAvailability) : Option PriceVal :=
  match classAvail.minPrice with
  | some mp =>
    match mp.parsedValue with
    | some v => if v = 0 then some (.rawMinPrice mp) else some (.parsed v)
    | none => some (.rawMinPrice mp)
  | none =>
    match classAvail.bookingClassAvailabilities with
    | none => none
    | some bcas =>
      match bcas.head? with
      | none => none
      | some bca =>
        match bca.price with
        | none => none
        | some p =>
          match p.parsedValue with
          | some v => if v = 0 then none else some (.parsed v)
          | none => none

/-- One processed cabin class record pushed onto trainInfo.cabinClasses. -/
structure ProcessedCabinClass where
  className : String
  classKey : Option String
  availability : Int
  price : Option PriceVal
  isSelected : Bool
deriving DecidableEq

/-- The per-train record built by processTrainAvailability. -/
structure TrainInfo where
  trainId : Int
  name : Option String
  departureTime : String
  arrivalTime : String
  cabinClasses : List ProcessedCabinClass
deriving DecidableEq

/-- The record returned by processTrainData. -/
structure SearchResult where
  found : Bool
  trains : List TrainInfo
  totalSeats : Int
deriving DecidableEq

/-- search.js SearchManager.processTrainAvailability: rejects trains with
no segments, rejects departures outside the time window, resolves each
cabin class entry against the catalog (entries with a missing cabinClass
or no catalog match are dropped), annotates isSelected, and rejects
trains whose processed cabin class list is empty. -/
def processTrainAvailability (fmt : Int → String) (train : Train)
    (timeStart timeEnd : String) (selectedCabinClasses : List String) :
    Option TrainInfo :=
  match train.segments with
  | [] => none
  | s0 :: rest =>
    let firstSegment := s0
    let lastSegment := (s0 :: rest).getLast (by simp)
    let departureTime := firstSegment.departureTime
    if !(isInTimeRange fmt departureTime timeStart timeEnd) then none
    else
      match train.cabinClassAvailabilities with
      | none => none
      | some cavs =>
        let cabinClasses := cavs.filterMap (fun classAvail =>
          match classAvail.cabinClass with
          | none => none
          | some ccRef =>
            match findCabinConfig ccRef.id with
            | none => none
            | some cabinConfig =>
              let cabinKey := findCabinKey ccRef.id
              some { className := cabinConfig.displayName
                     classKey := cabinKey
                     availability := jsNumOr classAvail.availabilityCount 0
                     price := resolvePrice classAvail
                     isSelected :=
                       match cabinKey with
                       | some k => selectedCabinClasses.contains k
                       | none => false })
        if cabinClasses.isEmpty then none
        else
          some { trainId := train.id
                 name := jsOrOptStr train.commercialName train.name
                 departureTime := fmt firstSegment.departureTime
                 arrivalTime := fmt lastSegment.arrivalTime
                 cabinClasses := cabinClasses }

/-- The check search.js performs on a processed train: some cabin class
entry has availability above zero and is selected. -/
def hasAvailableSelected (trainInfo : TrainInfo) : Bool :=
  trainInfo.cabinClasses.any (fun cabin =>
    decide (cabin.availability > 0) && cabin.isSelected)

/-- The selected-class availability sum search.js adds to totalSeats:
filter(isSelected).reduce(sum of availability, 0). -/
def selectedSeatsSum (trainInfo : TrainInfo) : Int :=
  (trainInfo.cabinClasses.filter (fun cabin => cabin.isSelected)).foldl
    (fun sum cabin => sum + cabin.availability) 0

/-- The body of the forEach over trains in processTrainData, acting on
the accumulator (foundAvailable, availableTrains, totalSeats). -/
def processOneTrain (fmt : Int → String) (timeStart timeEnd : String)
    (selectedCabinClasses : List String)
    (acc : Bool × List TrainInfo × Int) (train : Train) :
    Bool × List TrainInfo × Int :=
  match processTrainAvailability fmt train timeStart timeEnd selectedCabinClasses with
  | none => acc
  | some trainInfo =>
    if hasAvailableSelected trainInfo then
      (true, acc.2.1 ++ [trainInfo], acc.2.2 + selectedSeatsSum trainInfo)
    else acc

/-- The body of the outer for-of loop of processTrainData over
trainAvailabilities entries: skips entries without a trains list,
otherwise folds processOneTrain over the trains. -/
def processTrainsOfTA (fmt : Int → String) (timeStart timeEnd : String)
    (selectedCabinClasses : List String)
    (acc : Bool × List TrainInfo × Int)
    (trainAvailabilities : TrainAvailability) :
    Bool × List TrainInfo × Int :=
  match trainAvailabilities.trains with
  | none => acc
  | some trains =>
    trains.foldl (processOneTrain fmt timeStart timeEnd selectedCabinClasses) acc

/-- search.js SearchManager.processTrainData: walks
data.trainLegs?.[0]?.trainAvailabilities defensively and folds
processOneTrain over every trains list; a train enters the output list
only when it has availability in a selected class. -/
def processTrainData (fmt : Int → String) (data : AvailabilityData)
    (timeStart timeEnd : String) (selectedCabinClasses : List String) :
    SearchResult :=
  let init : Bool × List TrainInfo × Int := (false, [], 0)
  let acc :=
    match data.trainLegs with
    | none => init
    | some legs =>
      match legs.head? with
      | none => init
      | some leg =>
        match leg.trainAvailabilities with
        | none => init
        | some allTrainAvailabilities =>
          allTrainAvailabilities.foldl
            (processTrainsOfTA fmt timeStart timeEnd selectedCabinClasses) init
  { found := acc.1, trains := acc.2.1, totalSeats := acc.2.2 }

/-- The list of candidate trains of a response: every train of the
traversed structure that processTrainAvailability accepts (in traversal
order), before the selected-class availability filter. -/
def candidateTrains (fmt : Int → String) (data : AvailabilityData)
    (timeStart timeEnd : String) (selectedCabinClasses : List String) :
    List TrainInfo :=
  match data.trainLegs with
  | none => []
  | some legs =>
    match legs.head? with
    | none => []
    | some leg =>
      match leg.trainAvailabilities with
      | none => []
      | some tas =>
        tas.flatMap (fun ta =>
          (ta.trains.getD []).filterMap (fun train =>
            processTrainAvailability fmt train timeStart timeEnd
              selectedCabinClasses))

theorem foldl_processOneTrain (fmt : Int → String) (timeStart timeEnd : String)
    (sel : List String) (trains : List Train) (f : Bool) (l : List TrainInfo)
    (n : Int) :
    trains.foldl (processOneTrain fmt timeStart timeEnd sel) (f, l, n) =
      (f || (trains.filterMap
              (fun t => processTrainAvailability fmt t timeStart timeEnd sel)).any
              hasAvailableSelected,
       l ++ (trains.filterMap
              (fun t => processTrainAvailability fmt t timeStart timeEnd sel)).filter
              hasAvailableSelected,
       n + (((trains.filterMap
              (fun t => processTrainAvailability fmt t timeStart timeEnd sel)).filter
              hasAvailableSelected).map selectedSeatsSum).sum) := by
  induction trains generalizing f l n with
  | nil => simp
  | cons t rest ih =>
    rw [List.foldl_cons]
    cases h : processTrainAvailability fmt t timeStart timeEnd sel with
    | none =>
      rw [show processOneTrain fmt timeStart timeEnd sel (f, l, n) t = (f, l, n) by
        simp [processOneTrain, h]]
      rw [ih]
      simp [List.filterMap_cons, h]
    | some ti =>
      cases hp : hasAvailableSelected ti with
      | true =>
        rw [show processOneTrain fmt timeStart timeEnd sel (f, l, n) t =
            (true, l ++ [ti], n + selectedSeatsSum ti) by
          simp [processOneTrain, h, hp]]
        rw [ih]
        simp [List.filterMap_cons, h, hp, List.filter_cons, List.append_assoc,
          add_assoc]
      | false =>
        rw [show processOneTrain fmt timeStart timeEnd sel (f, l, n) t = (f, l, n) by
          simp [processOneTrain, h, hp]]
        rw [ih]
        simp [List.filterMap_cons, h, hp, List.filter_cons]

theorem foldl_processTrainsOfTA (fmt : Int → String) (timeStart timeEnd : String)
    (sel : List String) (tas : List TrainAvailability) (f : Bool)
    (l : List TrainInfo) (n : Int) :
    tas.foldl (processTrainsOfTA fmt timeStart timeEnd sel) (f, l, n) =
      (f || (tas.flatMap (fun ta =>
              (ta.trains.getD []).filterMap
                (fun t => processTrainAvailability fmt t timeStart timeEnd sel))).any
              hasAvailableSelected,
       l ++ (tas.flatMap (fun ta =>
              (ta.trains.getD []).filterMap
                (fun t => processTrainAvailability fmt t timeStart timeEnd sel))).filter
              hasAvailableSelected,
       n + (((tas.flatMap (fun ta =>
              (ta.trains.getD []).filterMap
                (fun t => processTrainAvailability fmt t timeStart timeEnd sel))).filter
              hasAvailableSelected).map selectedSeatsSum).sum) := by
  induction tas generalizing f l n with
  | nil => simp
  | cons ta rest ih =>
    rw [List.foldl_cons]
    cases hta : ta.trains with
    | none =>
      rw [show processTrainsOfTA fmt timeStart timeEnd sel (f, l, n) ta = (f, l, n) by
        simp [processTrainsOfTA, hta]]
      rw [ih]
      simp [hta]
    | some trains =>
      rw [show processTrainsOfTA fmt timeStart timeEnd sel (f, l, n) ta =
          trains.foldl (processOneTrain fmt timeStart timeEnd sel) (f, l, n) by
        simp [processTrainsOfTA, hta]]
      rw [foldl_processOneTrain, ih]
      simp [hta, List.flatMap_cons, List.filter_append, add_assoc, Bool.or_assoc]

/-- The full characterization of the Result Filter: processTrainData
returns exactly the candidates that have availability in a selected
class, found is their any-test, and totalSeats is the sum of their
selected-class availability sums. -/
theorem processTrainData_eq (fmt : Int → String) (data : AvailabilityData)
    (timeStart timeEnd : String) (sel : List String) :
    processTrainData fmt data timeStart timeEnd sel =
      { found := (candidateTrains fmt data timeStart timeEnd sel).any
          hasAvailableSelected,
        trains := (candidateTrains fmt data timeStart timeEnd sel).filter
          hasAvailableSelected,
        totalSeats := (((candidateTrains fmt data timeStart timeEnd sel).filter
          hasAvailableSelected).map selectedSeatsSum).sum } := by
  unfold processTrainData candidateTrains
  cases hlegs : data.trainLegs with
  | none => rfl
  | some legs =>
    cases legs with
    | nil => rfl
    | cons leg legrest =>
      cases hta : leg.trainAvailabilities with
      | none => simp [List.head?_cons, hta]
      | some tas =>
        simp only [List.head?_cons, hta]
        rw [foldl_processTrainsOfTA]
        simp

/-- A fixed instance of the abstracted formatTime used for concrete
evaluation: every timestamp renders as 09:15. -/
def fmt0 : Int → String := fun _ => "09:15"

/-- A train inside the window whose only (selected) economy entry is
sold out. -/
def soldOutTrain : Train :=
  { id := 101
    commercialName := some "YHT 8101"
    name := none
    segments := [⟨0, 1⟩]
    cabinClassAvailabilities :=
      some [{ cabinClass := some ⟨2⟩
              availabilityCount := some 0
              minPrice := none
              bookingClassAvailabilities := none }] }

/-- An availability response holding only soldOutTrain. -/
def soldOutData : AvailabilityData :=
  { trainLegs := some [{ trainAvailabilities := some [{ trains := some [soldOutTrain] }] }] }

/-- A train inside the window with three available economy seats. -/
def availTrain : Train :=
  { id := 102
    commercialName := some "YHT 8102"
    name := none
    segments := [⟨0, 1⟩]
    cabinClassAvailabilities :=
      some [{ cabinClass := some ⟨2⟩
              availabilityCount := some 3
              minPrice := none
              bookingClassAvailabilities := none }] }

/-- An availability response holding only availTrain. -/
def availData : AvailabilityData :=
  { trainLegs := some [{ trainAvailabilities := some [{ trains := some [availTrain] }] }] }

/-- The TrainInfo processTrainAvailability produces for availTrain. -/
def availTrainInfo : TrainInfo :=
  { trainId := 102
    name := some "YHT 8102"
    departureTime := "09:15"
    arrivalTime := "09:15"
    cabinClasses := [{ className := "Ekonomi Sınıfı"
                       classKey := some "ECONOMY"
                       availability := 3
                       price := none
                       isSelected := true }] }

/-- C1 (counterexample): a response whose only in-window train has a
selected-class entry that is sold out produces a non-empty candidate
list but processTrainData returns found=false with an EMPTY train list —
the sold-out train is not kept for display, contradicting the claim that
the returned list is non-empty. -/
theorem processTrainData_soldOut_counterexample :
    candidateTrains fmt0 soldOutData "08:00" "12:00" ["ECONOMY"] ≠ [] ∧
    (∀ ti ∈ candidateTrains fmt0 soldOutData "08:00" "12:00" ["ECONOMY"],
       hasAvailableSelected ti = false ∧
       ∃ cabin ∈ ti.cabinClasses, cabin.isSelected = true ∧ cabin.availability = 0) ∧
    (processTrainData fmt0 soldOutData "08:00" "12:00" ["ECONOMY"]).found = false ∧
    (processTrainData fmt0 soldOutData "08:00" "12:00" ["ECONOMY"]).trains = [] := by
  decide

/-- C1 (amended): found is true exactly when some candidate train has a
selected-class entry with availability above zero, and the returned
train list keeps exactly those candidates — so a response whose
in-window trains are all sold out in the selected classes yields
found=false together with an empty (not non-empty) train list. -/
theorem processTrainData_found_iff (fmt : Int → String) (data : AvailabilityData)
    (timeStart timeEnd : String) (sel : List String) :
    ((processTrainData fmt data timeStart timeEnd sel).found = true ↔
      ∃ ti ∈ candidateTrains fmt data timeStart timeEnd sel,
        hasAvailableSelected ti = true) ∧
    (processTrainData fmt data timeStart timeEnd sel).trains =
      (candidateTrains fmt data timeStart timeEnd sel).filter hasAvailableSelected := by
  rw [processTrainData_eq]
  exact ⟨by simp [List.any_eq_true], rfl⟩

/-- Witness for C1 evaluating the amended characterization on concrete
sold-out and available responses. -/
theorem processTrainData_found_iff_witness :
    ((processTrainData fmt0 soldOutData "08:00" "12:00" ["ECONOMY"]).found = true ↔
      ∃ ti ∈ candidateTrains fmt0 soldOutData "08:00" "12:00" ["ECONOMY"],
        hasAvailableSelected ti = true) ∧
    (processTrainData fmt0 availData "08:00" "12:00" ["ECONOMY"]).trains =
      (candidateTrains fmt0 availData "08:00" "12:00" ["ECONOMY"]).filter
        hasAvailableSelected :=
  ⟨(processTrainData_found_iff fmt0 soldOutData "08:00" "12:00" ["ECONOMY"]).1,
   (processTrainData_found_iff fmt0 availData "08:00" "12:00" ["ECONOMY"]).2⟩

/-!  search.js handleTicketsFound recount  -/

/-- The recount performed at the start of handleTicketsFound: the sum of
availability over cabin classes that are selected and have availability
above zero, across all trains of the result. -/
def actualAvailableSeats (trains : List TrainInfo) : Int :=
  trains.foldl (fun acc train =>
    train.cabinClasses.foldl (fun a cabin =>
      if cabin.isSelected && decide (cabin.availability > 0) then
        a + cabin.availability
      else a) acc) 0

theorem cabinFold_mono (cabins : List ProcessedCabinClass) (a : Int) :
    a ≤ cabins.foldl (fun a cabin =>
      if cabin.isSelected && decide (cabin.availability > 0) then
        a + cabin.availability
      else a) a := by
  induction cabins generalizing a with
  | nil => simp
  | cons c rest ih =>
    rw [List.foldl_cons]
    refine le_trans ?_ (ih _)
    by_cases h : (c.isSelected && decide (c.availability > 0)) = true
    · have hpos : 0 < c.availability := by
        have := (Bool.and_eq_true _ _).mp h
        exact of_decide_eq_true this.2
      rw [if_pos h]
      omega
    · rw [if_neg h]

theorem cabinFold_strict (cabins : List ProcessedCabinClass) (a : Int)
    (h : ∃ c ∈ cabins, (decide (c.availability > 0) && c.isSelected) = true) :
    a < cabins.foldl (fun a cabin =>
      if cabin.isSelected && decide (cabin.availability > 0) then
        a + cabin.availability
      else a) a := by
  induction cabins generalizing a with
  | nil => simp at h
  | cons c rest ih =>
    rw [List.foldl_cons]
    rcases h with ⟨c0, hc0, hpred⟩
    rcases List.mem_cons.mp hc0 with rfl | hmem
    · have hpred' : (c0.isSelected && decide (c0.availability > 0)) = true := by
        rw [Bool.and_comm]; exact hpred
      have hpos : 0 < c0.availability := by
        have := (Bool.and_eq_true _ _).mp hpred'
        exact of_decide_eq_true this.2
      rw [if_pos hpred']
      exact lt_of_lt_of_le (by omega) (cabinFold_mono rest _)
    · refine lt_of_le_of_lt ?_ (ih _ ⟨c0, hmem, hpred⟩)
      by_cases hc : (c.isSelected && decide (c.availability > 0)) = true
      · have hpos : 0 < c.availability := by
          have := (Bool.and_eq_true _ _).mp hc
          exact of_decide_eq_true this.2
        rw [if_pos hc]
        omega
      · rw [if_neg hc]

theorem trainsFold_mono (trains : List TrainInfo) (a : Int) :
    a ≤ trains.foldl (fun acc train =>
      train.cabinClasses.foldl (fun a cabin =>
        if cabin.isSelected && decide (cabin.availability > 0) then
          a + cabin.availability
        else a) acc) a := by
  induction trains generalizing a with
  | nil => simp
  | cons t rest ih =>
    rw [List.foldl_cons]
    exact le_trans (cabinFold_mono t.cabinClasses a) (ih _)

theorem actualAvailableSeats_pos (trains : List TrainInfo)
    (hne : trains ≠ [])
    (hall : ∀ ti ∈ trains, hasAvailableSelected ti = true) :
    0 < actualAvailableSeats trains := by
  rcases trains with _ | ⟨t, rest⟩
  · exact absurd rfl hne
  · rw [actualAvailableSeats, List.foldl_cons]
    have ht : hasAvailableSelected t = true := hall t (by simp)
    rw [hasAvailableSelected, List.any_eq_true] at ht
    rcases ht with ⟨c, hc, hcpred⟩
    exact lt_of_lt_of_le (cabinFold_strict t.cabinClasses 0 ⟨c, hc, hcpred⟩)
      (trainsFold_mono rest _)

/-- C10: every train returned by processTrainData has a selected cabin
class with availability above zero, found is true exactly when the
returned list is non-empty, and whenever found is true the seat sum
recomputed at the start of handleTicketsFound is strictly positive — so
the sold-out branch of handleTicketsFound cannot trigger on filter
output. -/
theorem processTrainData_soldOut_branch_unreachable (fmt : Int → String)
    (data : AvailabilityData) (timeStart timeEnd : String) (sel : List String) :
    (∀ ti ∈ (processTrainData fmt data timeStart timeEnd sel).trains,
       hasAvailableSelected ti = true) ∧
    ((processTrainData fmt data timeStart timeEnd sel).found = true ↔
      (processTrainData fmt data timeStart timeEnd sel).trains ≠ []) ∧
    ((processTrainData fmt data timeStart timeEnd sel).found = true →
      0 < actualAvailableSeats (processTrainData fmt data timeStart timeEnd sel).trains) := by
  rw [processTrainData_eq]
  refine ⟨?_, ?_, ?_⟩
  · intro ti hti
    exact List.of_mem_filter hti
  · simp only [List.any_eq_true, ne_eq, List.filter_eq_nil_iff]
    constructor
    · rintro ⟨ti, hti, hp⟩ hnone
      exact absurd hp (by simpa using hnone ti hti)
    · intro h
      by_contra hno
      push_neg at hno
      exact h (fun ti hti hp => by
        have := hno ti hti
        simp [hp] at this)
  · intro hfound
    refine actualAvailableSeats_pos _ ?_ (fun ti hti => List.of_mem_filter hti)
    simp only [List.any_eq_true] at hfound
    rcases hfound with ⟨ti, hti, hp⟩
    intro hnil
    rw [List.filter_eq_nil_iff] at hnil
    exact absurd hp (by simpa using hnil ti hti)

/-- Witness for C10: on the concrete available response the recomputed
seat sum is strictly positive. -/
theorem processTrainData_soldOut_branch_unreachable_witness :
    0 < actualAvailableSeats
        (processTrainData fmt0 availData "08:00" "12:00" ["ECONOMY"]).trains :=
  (processTrainData_soldOut_branch_unreachable fmt0 availData "08:00" "12:00"
    ["ECONOMY"]).2.2 (by decide)

/-- C6: with timeStart and timeEnd ordered, every candidate emitted by
processTrainAvailability has a formatted departure time (taken from the
first segment) inside [timeStart, timeEnd] under lexicographic string
comparison with both bounds inclusive, and a train whose formatted first
segment departure fails isInTimeRange is rejected. -/
theorem processTrainAvailability_timeWindow (fmt : Int → String) (train : Train)
    (timeStart timeEnd : String) (sel : List String)
    (hrange : timeStart ≤ timeEnd) :
    (∀ ti, processTrainAvailability fmt train timeStart timeEnd sel = some ti →
       timeStart ≤ ti.departureTime ∧ ti.departureTime ≤ timeEnd) ∧
    (∀ s0 rest, train.segments = s0 :: rest →
       isInTimeRange fmt s0.departureTime timeStart timeEnd = false →
       processTrainAvailability fmt train timeStart timeEnd sel = none) := by
  constructor
  · intro ti hti
    rw [processTrainAvailability] at hti
    split at hti
    next => simp at hti
    next =>
      rename_i xs s0 rest hseg
      dsimp only at hti
      split at hti
      next hcond => simp at hti
      next hcond =>
        have hR : isInTimeRange fmt s0.departureTime timeStart timeEnd = true := by
          simpa using hcond
        simp only [isInTimeRange] at hR
        have hb := (Bool.and_eq_true _ _).mp hR
        split at hti
        next => simp at hti
        next cavs hcavs =>
          split at hti
          next => simp at hti
          next =>
            have hdep : ti.departureTime = fmt s0.departureTime := by
              have h2 := Option.some.inj hti
              rw [← h2]
            rw [hdep]
            exact ⟨(jsStrLe_iff_le _ _).mp hb.1, (jsStrLe_iff_le _ _).mp hb.2⟩
  · intro s0 rest hseg hR
    rw [processTrainAvailability, hseg]
    simp [hR]

/-- Witness for C6 at a concrete in-window train, and for the rejection
branch at an out-of-window bound pair. -/
theorem processTrainAvailability_timeWindow_witness :
    ("08:00" : String) ≤ availTrainInfo.departureTime ∧
    availTrainInfo.departureTime ≤ "12:00" :=
  (processTrainAvailability_timeWindow fmt0 availTrain "08:00" "12:00" ["ECONOMY"]
    ((jsStrLe_iff_le "08:00" "12:00").mp (by decide))).1 availTrainInfo (by decide)

/-!  Seat-map response data model (the parts seat_allocation.js reads). -/

/-- The car object of a seat map template. -/
structure CarInfo where
  id : Int
  name : Option String
deriving DecidableEq

/-- The item object of a template seat entry (seatItem.item). -/
structure SeatItemData where
  id : Int
  saleable : Bool
  cabinClassId : Int
deriving DecidableEq

/-- One entry of template.seatMaps. -/
structure SeatMapItem where
  item : Option SeatItemData
  seatNumber : Option String
deriving DecidableEq

/-- The seatMapTemplate object of a car. -/
structure SeatMapTemplate where
  car : Option CarInfo
  seatMaps : Option (List SeatMapItem)
  description : Option String
  name : Option String
deriving DecidableEq

/-- One entry of a car allocation list (allocationSeats). -/
structure AllocationSeat where
  seatNumber : Option String
deriving DecidableEq

/-- One car entry of seatMapData.seatMaps. -/
structure SeatMap where
  trainCarId : Int
  seatMapTemplate : Option SeatMapTemplate
  allocationSeats : Option (List AllocationSeat)
deriving DecidableEq

/-- The seat-map response root. -/
structure SeatMapData where
  seatMaps : Option (List SeatMap)
deriving DecidableEq

/-- The record findFirstAvailableSeat returns. -/
structure SeatCandidate where
  trainCarId : Int
  seatNumber : String
  carName : Option String
  wagonNumber : String
  cabinClassName : String
  itemId : Int
deriving DecidableEq

/-- seat_allocation.js: the occupied set built from a car allocation
list — every truthy seatNumber of allocationSeats (a missing list gives
the empty set). -/
def occupiedSeatsOf (seatMap : SeatMap) : List String :=
  match seatMap.allocationSeats with
  | none => []
  | some allocs =>
    allocs.filterMap (fun alloc =>
      match alloc.seatNumber with
      | none => none
      | some s => if s = "" then none else some s)

/-- The whitespace class of the wagon-label regular expression. -/
def charIsWagonSpace (c : Char) : Bool :=
  c = ' ' || c = '\t' || c = '\n' || c = '\r' ||
  c = Char.ofNat 11 || c = Char.ofNat 12 || c = Char.ofNat 160

/-- Attempts the wagon-label pattern (digits, then dots or whitespace,
then the word VAGON case-insensitively) at the start of a character
list, returning the captured digit group. -/
def matchVagonAt (cs : List Char) : Option (List Char) :=
  let digits := cs.takeWhile Char.isDigit
  if digits.isEmpty then none
  else
    let rest := (cs.dropWhile Char.isDigit).dropWhile
      (fun c => charIsWagonSpace c || c = '.')
    if "VAGON".data.isPrefixOf (rest.map Char.toUpper) then some digits else none

/-- Leftmost match of the wagon-label pattern over a character list. -/
def wagonMatch : List Char → Option (List Char)
  | [] => none
  | c :: rest =>
    match matchVagonAt (c :: rest) with
    | some d => some d
    | none => wagonMatch rest

/-- seat_allocation.js wagon-number extraction: the digit group of the
first match of the pattern in description falling back to name, with the
question mark default when nothing matches. -/
def extractWagonNumber (template : SeatMapTemplate) : String :=
  let wagonText := jsOrStr template.description (jsOrStr template.name "")
  match wagonMatch wagonText.data with
  | some digits => String.mk digits
  | none => "?"

/-- seat_allocation.js: selected cabin class keys mapped to catalog ids,
unknown keys dropped. -/
def selectedCabinClassIdsOf (selectedCabinClasses : List String) : List Int :=
  selectedCabinClasses.filterMap (fun key =>
    (CABIN_CLASSES.lookup key).map (fun config => config.id))

/-- The SeatCandidate record built at the return point of the item scan.
The guards of the scan ensure the item and a non-empty seat number are
present; the defaults here are never selected for a valid item. -/
def mkSeatCandidate (seatMap : SeatMap) (template : SeatMapTemplate)
    (seatItem : SeatMapItem) : SeatCandidate :=
  { trainCarId := seatMap.trainCarId
    seatNumber := seatItem.seatNumber.getD ""
    carName := jsOrOptStr (template.car.bind CarInfo.name) template.name
    wagonNumber := extractWagonNumber template
    cabinClassName :=
      jsOrStr (((seatItem.item.map SeatItemData.cabinClassId).bind
        findCabinConfig).map CabinClassConfig.displayName) "Bilinmeyen"
    itemId := (seatItem.item.map SeatItemData.id).getD 0 }

/-- The item scan of findFirstAvailableSeat over one car template: skip
items without a saleable item object, items of unselected cabin classes,
items without a truthy seat number, and items whose seat number is in
the occupied set; return the first survivor. -/
def findSeatInItems (selectedCabinClassIds : List Int) (seatMap : SeatMap)
    (template : SeatMapTemplate) (occupiedSeats : List String) :
    List SeatMapItem → Option SeatCandidate
  | [] => none
  | seatItem :: rest =>
    match seatItem.item with
    | none => findSeatInItems selectedCabinClassIds seatMap template occupiedSeats rest
    | some item =>
      if !item.saleable then
        findSeatInItems selectedCabinClassIds seatMap template occupiedSeats rest
      else if !(selectedCabinClassIds.contains item.cabinClassId) then
        findSeatInItems selectedCabinClassIds seatMap template occupiedSeats rest
      else
        match seatItem.seatNumber with
        | none => findSeatInItems selectedCabinClassIds seatMap template occupiedSeats rest
        | some sn =>
          if sn = "" then
            findSeatInItems selectedCabinClassIds seatMap template occupiedSeats rest
          else if occupiedSeats.contains sn then
            findSeatInItems selectedCabinClassIds seatMap template occupiedSeats rest
          else some (mkSeatCandidate seatMap template seatItem)

/-- The car scan of findFirstAvailableSeat: skip cars without a template
or without template seat items, otherwise scan the items of the car with
its occupied set. -/
def findSeatInMaps (selectedCabinClassIds : List Int) :
    List SeatMap → Option SeatCandidate
  | [] => none
  | seatMap :: rest =>
    match seatMap.seatMapTemplate with
    | none => findSeatInMaps selectedCabinClassIds rest
    | some template =>
      match template.seatMaps with
      | none => findSeatInMaps selectedCabinClassIds rest
      | some items =>
        match findSeatInItems selectedCabinClassIds seatMap template
            (occupiedSeatsOf seatMap) items with
        | some seat => some seat
        | none => findSeatInMaps selectedCabinClassIds rest

/-- seat_allocation.js SeatAllocationManager.findFirstAvailableSeat. -/
def findFirstAvailableSeat (seatMaps : List SeatMap)
    (selectedCabinClasses : List String) : Option SeatCandidate :=
  findSeatInMaps (selectedCabinClassIdsOf selectedCabinClasses) seatMaps

/-- The validity predicate of one template item relative to a car: a
saleable item object, a selected cabin class id, a truthy seat number
not in the occupied set. -/
def seatItemValid (selectedCabinClassIds : List Int) (occupiedSeats : List String)
    (seatItem : SeatMapItem) : Bool :=
  match seatItem.item with
  | none => false
  | some item =>
    item.saleable && selectedCabinClassIds.contains item.cabinClassId &&
    (match seatItem.seatNumber with
     | none => false
     | some sn => decide (sn ≠ "") && !(occupiedSeats.contains sn))

/-- The declarative first-match view of the Seat Locator: the first car
(in seat-map array order) owning a template item list whose first valid
item (in item order) exists. -/
def firstValidSeat (seatMaps : List SeatMap) (selectedCabinClassIds : List Int) :
    Option (SeatMap × SeatMapTemplate × SeatMapItem) :=
  seatMaps.findSome? (fun seatMap =>
    match seatMap.seatMapTemplate with
    | none => none
    | some template =>
      match template.seatMaps with
      | none => none
      | some items =>
        (items.find? (seatItemValid selectedCabinClassIds
          (occupiedSeatsOf seatMap))).map
          (fun seatItem => (seatMap, template, seatItem)))

theorem findSeatInItems_eq_find (selIds : List Int) (sm : SeatMap)
    (template : SeatMapTemplate) (occ : List String) (items : List SeatMapItem) :
    findSeatInItems selIds sm template occ items =
      (items.find? (seatItemValid selIds occ)).map (mkSeatCandidate sm template) := by
  induction items with
  | nil => rfl
  | cons w rest ih =>
    rcases hit : w.item with _ | item
    · simp [findSeatInItems, seatItemValid, hit, ih, List.find?_cons]
    · rcases hsal : item.saleable with _ | _
      · simp [findSeatInItems, seatItemValid, hit, hsal, ih, List.find?_cons]
      · by_cases hcont : item.cabinClassId ∈ selIds
        · rcases hsn : w.seatNumber with _ | sn
          · simp [findSeatInItems, seatItemValid, hit, hsal, hcont, hsn, ih,
              List.find?_cons]
          · by_cases hemp : sn = ""
            · simp [findSeatInItems, seatItemValid, hit, hsal, hcont, hsn, hemp,
                ih, List.find?_cons]
            · by_cases hocc : sn ∈ occ
              · simp [findSeatInItems, seatItemValid, hit, hsal, hcont, hsn,
                  hemp, hocc, ih, List.find?_cons]
              · simp [findSeatInItems, seatItemValid, hit, hsal, hcont, hsn,
                  hemp, hocc, ih, List.find?_cons]
        · simp [findSeatInItems, seatItemValid, hit, hsal, hcont, ih,
            List.find?_cons]

theorem findSeatInMaps_eq_findSome (selIds : List Int) (maps : List SeatMap) :
    findSeatInMaps selIds maps =
      (firstValidSeat maps selIds).map
        (fun x => mkSeatCandidate x.1 x.2.1 x.2.2) := by
  induction maps with
  | nil => rfl
  | cons sm rest ih =>
    have ih' : findSeatInMaps selIds rest =
        (rest.findSome? (fun seatMap =>
          match seatMap.seatMapTemplate with
          | none => none
          | some template =>
            match template.seatMaps with
            | none => none
            | some items =>
              (items.find? (seatItemValid selIds (occupiedSeatsOf seatMap))).map
                (fun seatItem => (seatMap, template, seatItem)))).map
          (fun x => mkSeatCandidate x.1 x.2.1 x.2.2) := by
      rw [ih, firstValidSeat]
    rcases htpl : sm.seatMapTemplate with _ | template
    · rw [show findSeatInMaps selIds (sm :: rest) = findSeatInMaps selIds rest by
        simp [findSeatInMaps, htpl]]
      rw [ih', firstValidSeat, List.findSome?_cons]
      simp [htpl]
    · rcases hitems : template.seatMaps with _ | items
      · rw [show findSeatInMaps selIds (sm :: rest) = findSeatInMaps selIds rest by
          simp [findSeatInMaps, htpl, hitems]]
        rw [ih', firstValidSeat, List.findSome?_cons]
        simp [htpl, hitems]
      · rw [firstValidSeat, List.findSome?_cons]
        rcases hfind : items.find? (seatItemValid selIds (occupiedSeatsOf sm))
          with _ | w
        · rw [show findSeatInMaps selIds (sm :: rest) = findSeatInMaps selIds rest by
            simp [findSeatInMaps, htpl, hitems, findSeatInItems_eq_find, hfind]]
          rw [ih']
          simp [htpl, hitems, hfind]
        · rw [show findSeatInMaps selIds (sm :: rest) =
              some (mkSeatCandidate sm template w) by
            simp [findSeatInMaps, htpl, hitems, findSeatInItems_eq_find, hfind]]
          simp [htpl, hitems, hfind]

/-- C5: findFirstAvailableSeat equals the declarative first-match view
(first car in seat-map array order, first template item in item order);
any returned seat comes from a saleable item of a selected class with a
non-empty seat number absent from the occupied set of its car; and if no
car holds a valid item the result is null. -/
theorem findFirstAvailableSeat_correct (seatMaps : List SeatMap)
    (sel : List String) :
    (findFirstAvailableSeat seatMaps sel =
      (firstValidSeat seatMaps (selectedCabinClassIdsOf sel)).map
        (fun x => mkSeatCandidate x.1 x.2.1 x.2.2)) ∧
    (∀ seat, findFirstAvailableSeat seatMaps sel = some seat →
      ∃ sm ∈ seatMaps, ∃ template, sm.seatMapTemplate = some template ∧
        ∃ items, template.seatMaps = some items ∧
          ∃ w ∈ items, seat = mkSeatCandidate sm template w ∧
            ∃ item, w.item = some item ∧ item.saleable = true ∧
              item.cabinClassId ∈ selectedCabinClassIdsOf sel ∧
              w.seatNumber = some seat.seatNumber ∧ seat.seatNumber ≠ "" ∧
              seat.seatNumber ∉ occupiedSeatsOf sm ∧
              seat.trainCarId = sm.trainCarId) ∧
    ((∀ sm ∈ seatMaps, ∀ template, sm.seatMapTemplate = some template →
        ∀ items, template.seatMaps = some items →
          ∀ w ∈ items, seatItemValid (selectedCabinClassIdsOf sel)
            (occupiedSeatsOf sm) w = false) →
      findFirstAvailableSeat seatMaps sel = none) := by
  have hmain : findFirstAvailableSeat seatMaps sel =
      (firstValidSeat seatMaps (selectedCabinClassIdsOf sel)).map
        (fun x => mkSeatCandidate x.1 x.2.1 x.2.2) :=
    findSeatInMaps_eq_findSome (selectedCabinClassIdsOf sel) seatMaps
  refine ⟨hmain, ?_, ?_⟩
  · intro seat hseat
    rw [hmain] at hseat
    rcases hfv : firstValidSeat seatMaps (selectedCabinClassIdsOf sel)
      with _ | ⟨sm, template, w⟩
    · rw [hfv] at hseat; exact absurd hseat (by simp)
    · rw [hfv] at hseat
      have hseat' : seat = mkSeatCandidate sm template w := by
        simpa using hseat.symm
      rw [firstValidSeat] at hfv
      obtain ⟨sm0, hsm0, hf0⟩ := List.exists_of_findSome?_eq_some hfv
      split at hf0
      next => exact absurd hf0 (by simp)
      next =>
        rename_i template0 htpl
        split at hf0
        next => exact absurd hf0 (by simp)
        next =>
          rename_i items0 hitems
          rcases hfind : items0.find? (seatItemValid (selectedCabinClassIdsOf sel)
            (occupiedSeatsOf sm0)) with _ | w0
          · rw [hfind] at hf0; exact absurd hf0 (by simp)
          · rw [hfind] at hf0
            have htrip := Option.some.inj hf0
            have hsm_eq : sm = sm0 := (congrArg Prod.fst htrip).symm
            subst hsm_eq
            have htpl_eq : template = template0 :=
              (congrArg (fun x => x.2.1) htrip).symm
            subst htpl_eq
            have hw_eq : w = w0 := (congrArg (fun x => x.2.2) htrip).symm
            subst hw_eq
            have hvalid := List.find?_some hfind
            have hmem := List.mem_of_find?_eq_some hfind
            rw [seatItemValid] at hvalid
            rcases hit : w.item with _ | item
            · rw [hit] at hvalid; simp at hvalid
            · rw [hit] at hvalid
              rcases hsn : w.seatNumber with _ | sn
              · rw [hsn] at hvalid; simp at hvalid
              · rw [hsn] at hvalid
                simp only [Bool.and_eq_true, decide_eq_true_eq,
                  Bool.not_eq_true'] at hvalid
                obtain ⟨⟨hsal, hcont⟩, hne, hocc⟩ := hvalid
                have hseatnum : seat.seatNumber = sn := by
                  rw [hseat']
                  simp [mkSeatCandidate, hsn]
                have hcar : seat.trainCarId = sm.trainCarId := by
                  rw [hseat']; rfl
                refine ⟨sm, hsm0, template, htpl, items0, hitems, w, hmem,
                  hseat', item, hit, hsal, ?_, ?_, ?_, ?_, hcar⟩
                · simpa using hcont
                · rw [hseatnum]; exact hsn
                · rw [hseatnum]; exact hne
                · rw [hseatnum]
                  intro hmemocc
                  have hc : (occupiedSeatsOf sm).contains sn = true := by
                    simpa using hmemocc
                  rw [hc] at hocc
                  exact Bool.noConfusion hocc
  · intro hnone
    rw [hmain]
    have hfvnone : firstValidSeat seatMaps (selectedCabinClassIdsOf sel) = none := by
      rw [firstValidSeat]
      rw [List.findSome?_eq_none_iff]
      intro sm hsm
      rcases htpl : sm.seatMapTemplate with _ | template
      · simp [htpl]
      · rcases hitems : template.seatMaps with _ | items
        · simp [htpl, hitems]
        · have hfind : items.find? (seatItemValid (selectedCabinClassIdsOf sel)
              (occupiedSeatsOf sm)) = none := by
            rw [List.find?_eq_none]
            intro w hw
            simp [hnone sm hsm template htpl items hitems w hw]
          simp [htpl, hitems, hfind]
    rw [hfvnone]
    rfl

/-- A concrete car whose only seat is economy, saleable and already in
the occupied set, matching the specification example. -/
def occupiedExampleCar : SeatMap :=
  { trainCarId := 100
    seatMapTemplate :=
      some { car := some ⟨1, some "Vagon 1"⟩
             seatMaps := some [{ item := some ⟨7, true, 2⟩, seatNumber := some "5A" }]
             description := some "YHT CAF 1. VAGON EKONOMI"
             name := none }
    allocationSeats := some [{ seatNumber := some "5A" }] }

/-- Witness for C5: on the specification example (one economy seat 5A,
occupied set holding 5A) the locator returns null. -/
theorem findFirstAvailableSeat_correct_witness :
    findFirstAvailableSeat [occupiedExampleCar] ["ECONOMY"] = none :=
  (findFirstAvailableSeat_correct [occupiedExampleCar] ["ECONOMY"]).2.2 (by decide)

/-!  api.js — the Availability Client.  Each method becomes a function of
the current client state and a fetch-outcome oracle, returning the
result, the next state and the trace of observable events (flag writes,
sleeps, network calls). -/

/-- A network request issued by the client, with its distinguishing
payload fields. -/
inductive NetCall
  | availability (departureStationId arrivalStationId : Int) (departureDate : String)
  | seatMap (trainId fromStationId toStationId : Int)
  | allocateCall (trainCarId : Int) (seatNumber : String)
  | deallocate (trainCarId allocationId : Int) (seatNumber : String)
deriving DecidableEq

/-- An observable event of the embedded program. -/
inductive Ev
  | setLoading (b : Bool)
  | sleep (ms : Int)
  | net (c : NetCall)
  | status (message category : String)
  | logMsg (message : String)
  | setSearchingState (b : Bool)
  | clearSearchInterval (handle : Nat)
  | stopMusic
  | playAlert
  | showAllocatedSeat
  | displayResults (trains : List TrainInfo)
deriving DecidableEq

/-- The mutable state of the TrainAPI singleton: the single request-in-
progress flag. -/
structure APIState where
  isLoading : Bool
deriving DecidableEq

/-- A JavaScript Error value, reduced to its message. -/
structure JsError where
  message : String
deriving DecidableEq

/-- The outcome of one fetch as decided by the environment: a parsed ok
response, a non-ok HTTP status, or a network-level throw. -/
inductive FetchOutcome (α : Type)
  | ok (data : α)
  | httpError (code : Nat)
  | networkError (message : String)
deriving DecidableEq

/-- api.js TrainAPI.isRequestInProgress. -/
def isRequestInProgress (st : APIState) : Bool := st.isLoading

/-- The result of checkAvailability: the null busy sentinel, data, or a
thrown error. -/
inductive AvailResult
  | busy
  | ok (data : AvailabilityData)
  | thrown (e : JsError)
deriving DecidableEq

/-- The search parameters assembled by the UI form. -/
structure SearchParams where
  departureStationId : Int
  departureStationName : String
  arrivalStationId : Int
  arrivalStationName : String
  departureDate : String
  timeStart : String
  timeEnd : String
  selectedCabinClasses : List String
deriving DecidableEq

/-- api.js TrainAPI.checkAvailability: returns the null busy sentinel
without any effect when a request is in flight; otherwise sets the
loading flag, sleeps a random anti-bot delay unless skipDelay, issues
the availability request, and resets the flag in the finally block on
every outcome including throws. -/
def checkAvailability (st : APIState) (params : SearchParams) (skipDelay : Bool)
    (rnd : ℚ) (outcome : FetchOutcome AvailabilityData) :
    AvailResult × APIState × List Ev :=
  if st.isLoading then (.busy, st, [])
  else
    let delayEvents :=
      if skipDelay then []
      else [Ev.sleep (getRandomDelay MIN_ANTI_BOT_DELAY MAX_ANTI_BOT_DELAY rnd)]
    let callEv := Ev.net (.availability params.departureStationId
      params.arrivalStationId (params.departureDate ++ " 00:00:00"))
    let events := Ev.setLoading true :: delayEvents ++ [callEv, Ev.setLoading false]
    match outcome with
    | .ok data => (.ok data, { isLoading := false }, events)
    | .httpError code =>
      (.thrown ⟨"HTTP " ++ toString code ++ ": API request failed"⟩,
       { isLoading := false }, events)
    | .networkError msg => (.thrown ⟨msg⟩, { isLoading := false }, events)

/-- api.js TrainAPI.checkSeatMap: issues the seat-map request
unconditionally (no busy guard, no flag update) and returns null on any
failure. -/
def checkSeatMap (st : APIState) (trainId fromStationId toStationId : Int)
    (outcome : FetchOutcome SeatMapData) :
    Option SeatMapData × APIState × List Ev :=
  let callEv := Ev.net (.seatMap trainId fromStationId toStationId)
  match outcome with
  | .ok data => (some data, st, [callEv])
  | .httpError _ => (none, st, [callEv])
  | .networkError _ => (none, st, [callEv])

/-- The allocation response body. -/
structure AllocResponse where
  allocationId : Option Int
  lockFor : Option Int
deriving DecidableEq

/-- api.js TrainAPI.allocateSeat: issues the select-seat request
unconditionally (no busy guard, no flag update) and returns null on any
failure. -/
def allocateSeat (st : APIState) (trainCarId : Int) (seatNumber : String)
    (outcome : FetchOutcome AllocResponse) :
    Option AllocResponse × APIState × List Ev :=
  let callEv := Ev.net (.allocateCall trainCarId seatNumber)
  match outcome with
  | .ok data => (some data, st, [callEv])
  | .httpError _ => (none, st, [callEv])
  | .networkError _ => (none, st, [callEv])

/-- The object deallocateSeat resolves with on success. -/
structure DeallocSuccess where
  success : Bool
deriving DecidableEq

/-- api.js TrainAPI.deallocateSeat: issues the release-seat request
unconditionally (no busy guard, no flag update); unlike the other two
soft-fail calls it rethrows failures to its caller. -/
def deallocateSeat (st : APIState) (trainCarId allocationId : Int)
    (seatNumber : String) (outcome : FetchOutcome Unit) :
    Except JsError DeallocSuccess × APIState × List Ev :=
  let callEv := Ev.net (.deallocate trainCarId allocationId seatNumber)
  match outcome with
  | .ok _ => (.ok { success := true }, st, [callEv])
  | .httpError code =>
    (.error ⟨"HTTP " ++ toString code ++ ": Deallocation request failed"⟩,
     st, [callEv])
  | .networkError msg => (.error ⟨msg⟩, st, [callEv])

/-- Concrete search parameters for witnesses. -/
def params0 : SearchParams :=
  { departureStationId := 10
    departureStationName := "KONYA"
    arrivalStationId := 20
    arrivalStationName := "ANKARA GAR"
    departureDate := "05-03-2025"
    timeStart := "08:00"
    timeEnd := "12:00"
    selectedCabinClasses := ["ECONOMY"] }

/-- C3 (counterexample): while a request is pending (the in-flight flag
is true), checkSeatMap still executes its network call and returns its
parsed data instead of a busy sentinel, and it leaves the flag
untouched — so the busy guard does not cover all four operations. -/
theorem client_busy_guard_counterexample :
    (checkSeatMap ⟨true⟩ 1 2 3 (.ok ⟨some []⟩)).1 = some ⟨some []⟩ ∧
    (checkSeatMap ⟨true⟩ 1 2 3 (.ok ⟨some []⟩)).2.2 = [Ev.net (.seatMap 1 2 3)] ∧
    (checkSeatMap ⟨true⟩ 1 2 3 (.ok ⟨some []⟩)).2.1.isLoading = true :=
  ⟨rfl, rfl, rfl⟩

/-- C3 (amended): only checkAvailability enforces the single-flight
guard — while loading it returns the busy sentinel with no state change
and no effect, and when not loading its flag is set first and reset last
on every outcome including throws; checkSeatMap, allocateSeat and
deallocateSeat neither check nor modify the flag and always issue their
network call. -/
theorem client_single_flight_amended (st : APIState) :
    (∀ params skipDelay rnd outcome, st.isLoading = true →
       checkAvailability st params skipDelay rnd outcome = (.busy, st, [])) ∧
    (∀ params skipDelay rnd outcome, st.isLoading = false →
       (checkAvailability st params skipDelay rnd outcome).2.1.isLoading = false ∧
       (checkAvailability st params skipDelay rnd outcome).2.2.head? =
         some (Ev.setLoading true) ∧
       (checkAvailability st params skipDelay rnd outcome).2.2.getLast? =
         some (Ev.setLoading false)) ∧
    (∀ a b c outcome, (checkSeatMap st a b c outcome).2.1 = st ∧
       (checkSeatMap st a b c outcome).2.2 = [Ev.net (.seatMap a b c)]) ∧
    (∀ a sn outcome, (allocateSeat st a sn outcome).2.1 = st ∧
       (allocateSeat st a sn outcome).2.2 = [Ev.net (.allocateCall a sn)]) ∧
    (∀ a b sn outcome, (deallocateSeat st a b sn outcome).2.1 = st ∧
       (deallocateSeat st a b sn outcome).2.2 = [Ev.net (.deallocate a b sn)]) := by
  refine ⟨?_, ?_, ?_, ?_, ?_⟩
  · intro params skipDelay rnd outcome h
    rw [checkAvailability, if_pos (by rw [h])]
  · intro params skipDelay rnd outcome h
    cases outcome <;> cases skipDelay <;>
      simp [checkAvailability, h, List.getLast?]
  · intro a b c outcome
    cases outcome <;> exact ⟨rfl, rfl⟩
  · intro a sn outcome
    cases outcome <;> exact ⟨rfl, rfl⟩
  · intro a b sn outcome
    cases outcome <;> exact ⟨rfl, rfl⟩

/-- Witness for C3 (amended) at concrete states and outcomes. -/
theorem client_single_flight_amended_witness :
    checkAvailability ⟨true⟩ params0 true (1/2) (.ok ⟨none⟩) =
      (.busy, ⟨true⟩, []) ∧
    (checkSeatMap ⟨false⟩ 1 2 3 (.ok ⟨some []⟩)).2.1 = ⟨false⟩ :=
  ⟨(client_single_flight_amended ⟨true⟩).1 params0 true (1/2) (.ok ⟨none⟩) rfl,
   ((client_single_flight_amended ⟨false⟩).2.2.1 1 2 3 (.ok ⟨some []⟩)).1⟩

/-- C8: for every outcome of the random source in [0, 1) and ordered
bounds, getRandomDelay lies between the bounds inclusive; a non-busy
checkAvailability with skipDelay=false sleeps exactly a delay drawn this
way from [MIN_ANTI_BOT_DELAY, MAX_ANTI_BOT_DELAY], and with
skipDelay=true sleeps nothing. -/
theorem getRandomDelay_bounds (rnd : ℚ) (h0 : 0 ≤ rnd) (h1 : rnd < 1) :
    (∀ mn mx : Int, mn ≤ mx →
       mn ≤ getRandomDelay mn mx rnd ∧ getRandomDelay mn mx rnd ≤ mx) ∧
    (∀ st params outcome, st.isLoading = false →
       (∀ d, Ev.sleep d ∉ (checkAvailability st params true rnd outcome).2.2) ∧
       Ev.sleep (getRandomDelay MIN_ANTI_BOT_DELAY MAX_ANTI_BOT_DELAY rnd) ∈
         (checkAvailability st params false rnd outcome).2.2 ∧
       MIN_ANTI_BOT_DELAY ≤ getRandomDelay MIN_ANTI_BOT_DELAY MAX_ANTI_BOT_DELAY rnd ∧
       getRandomDelay MIN_ANTI_BOT_DELAY MAX_ANTI_BOT_DELAY rnd ≤ MAX_ANTI_BOT_DELAY) := by
  have hbounds : ∀ mn mx : Int, mn ≤ mx →
      mn ≤ getRandomDelay mn mx rnd ∧ getRandomDelay mn mx rnd ≤ mx := by
    intro mn mx hle
    have hle' : (mn : ℚ) ≤ (mx : ℚ) := by exact_mod_cast hle
    constructor
    · rw [getRandomDelay]
      apply Int.le_floor.mpr
      have hnn : 0 ≤ rnd * ((mx : ℚ) - (mn : ℚ)) :=
        mul_nonneg h0 (sub_nonneg.mpr hle')
      linarith
    · rw [getRandomDelay]
      have hx : (mn : ℚ) + rnd * ((mx : ℚ) - (mn : ℚ)) ≤ (mx : ℚ) := by
        nlinarith
      calc ⌊(mn : ℚ) + rnd * ((mx : ℚ) - (mn : ℚ))⌋ ≤ ⌊(mx : ℚ)⌋ :=
            Int.floor_le_floor hx
        _ = mx := Int.floor_intCast mx
  refine ⟨hbounds, ?_⟩
  intro st params outcome h
  refine ⟨?_, ?_, hbounds MIN_ANTI_BOT_DELAY MAX_ANTI_BOT_DELAY (by norm_num [MIN_ANTI_BOT_DELAY, MAX_ANTI_BOT_DELAY])⟩
  · intro d
    cases outcome <;> simp [checkAvailability, h]
  · cases outcome <;> simp [checkAvailability, h]

/-- Witness for C8 at the midpoint outcome of the random source. -/
theorem getRandomDelay_bounds_witness :
    MIN_ANTI_BOT_DELAY ≤
      getRandomDelay MIN_ANTI_BOT_DELAY MAX_ANTI_BOT_DELAY (1 / 2) ∧
    getRandomDelay MIN_ANTI_BOT_DELAY MAX_ANTI_BOT_DELAY (1 / 2) ≤
      MAX_ANTI_BOT_DELAY :=
  (getRandomDelay_bounds (1 / 2) (by norm_num) (by norm_num)).1
    MIN_ANTI_BOT_DELAY MAX_ANTI_BOT_DELAY
    (by norm_num [MIN_ANTI_BOT_DELAY, MAX_ANTI_BOT_DELAY])

/-!  seat_allocation.js — the Allocation Tracker. -/

/-- The stored allocation record (this.allocatedSeat when non-null). -/
structure AllocatedSeat where
  trainName : Option String
  trainId : Int
  departureTime : String
  arrivalTime : String
  seatNumber : String
  trainCarId : Int
  carName : Option String
  wagonNumber : String
  cabinClassName : String
  allocationId : Int
  lockFor : Int
deriving DecidableEq

/-- The mutable state of the SeatAllocationManager singleton. -/
structure AllocState where
  allocatedSeat : Option AllocatedSeat
deriving DecidableEq

/-- seat_allocation.js hasAllocatedSeat: allocatedSeat is not null. -/
def hasAllocatedSeat (st : AllocState) : Bool := st.allocatedSeat.isSome

/-- seat_allocation.js clearAllocation: discards the slot without any
network call. -/
def clearAllocation (_st : AllocState) : AllocState := { allocatedSeat := none }

/-- The result object of checkAndAllocateFirstSeat. -/
structure AllocResult where
  success : Bool
  message : String
  seatInfo : Option AllocatedSeat
deriving DecidableEq

/-- seat_allocation.js SeatAllocationManager.checkAndAllocateFirstSeat:
fetch the seat map, locate a seat, allocate it, store the allocation.
There is NO guard on an existing allocation inside this method — the
caller (handleTicketsFound) performs that check.  The JavaScript guard
on the allocation response id treats 0 as falsy; a missing lockFor (or
lockFor 0) defaults to 10. -/
def checkAndAllocateFirstSeat (st : AllocState) (trainInfo : TrainInfo)
    (searchParams : SearchParams) (apiSt : APIState)
    (seatMapOutcome : FetchOutcome SeatMapData)
    (allocateOutcome : FetchOutcome AllocResponse) :
    AllocResult × AllocState × APIState × List Ev :=
  let smRes := checkSeatMap apiSt trainInfo.trainId
    searchParams.departureStationId searchParams.arrivalStationId seatMapOutcome
  let apiSt1 := smRes.2.1
  let ev1 := smRes.2.2
  match smRes.1 with
  | none =>
    ({ success := false, message := "Koltuk haritası alınamadı", seatInfo := none },
     st, apiSt1, ev1)
  | some seatMapData =>
    match seatMapData.seatMaps with
    | none =>
      ({ success := false, message := "Koltuk haritası alınamadı", seatInfo := none },
       st, apiSt1, ev1)
    | some seatMaps =>
      match findFirstAvailableSeat seatMaps searchParams.selectedCabinClasses with
      | none =>
        ({ success := false,
           message := "Seçilen kategorilerde boş koltuk bulunamadı",
           seatInfo := none }, st, apiSt1, ev1)
      | some seatToAllocate =>
        let alRes := allocateSeat apiSt1 seatToAllocate.trainCarId
          seatToAllocate.seatNumber allocateOutcome
        let apiSt2 := alRes.2.1
        let ev2 := alRes.2.2
        match alRes.1 with
        | none =>
          ({ success := false, message := "Koltuk tutma işlemi başarısız oldu",
             seatInfo := none }, st, apiSt2, ev1 ++ ev2)
        | some allocationResult =>
          match allocationResult.allocationId with
          | none =>
            ({ success := false, message := "Koltuk tutma işlemi başarısız oldu",
               seatInfo := none }, st, apiSt2, ev1 ++ ev2)
          | some allocId =>
            if allocId = 0 then
              ({ success := false, message := "Koltuk tutma işlemi başarısız oldu",
                 seatInfo := none }, st, apiSt2, ev1 ++ ev2)
            else
              let newSeat : AllocatedSeat :=
                { trainName := trainInfo.name
                  trainId := trainInfo.trainId
                  departureTime := trainInfo.departureTime
                  arrivalTime := trainInfo.arrivalTime
                  seatNumber := seatToAllocate.seatNumber
                  trainCarId := seatToAllocate.trainCarId
                  carName := seatToAllocate.carName
                  wagonNumber := seatToAllocate.wagonNumber
                  cabinClassName := seatToAllocate.cabinClassName
                  allocationId := allocId
                  lockFor := jsNumOr allocationResult.lockFor 10 }
              ({ success := true, message := "Koltuk başarıyla tutuldu",
                 seatInfo := some newSeat },
               { allocatedSeat := some newSeat }, apiSt2, ev1 ++ ev2)

/-- The result object of releaseSeat. -/
structure ReleaseResult where
  success : Bool
  message : String
deriving DecidableEq

/-- seat_allocation.js SeatAllocationManager.releaseSeat: success=false
with no network call when nothing is held; otherwise calls
deallocateSeat, clears the slot on success, and CATCHES a thrown
transport error into a success=false result (the Except layer shows the
method itself never throws), leaving the slot populated. -/
def releaseSeat (st : AllocState) (apiSt : APIState)
    (outcome : FetchOutcome Unit) :
    Except JsError ReleaseResult × AllocState × APIState × List Ev :=
  match st.allocatedSeat with
  | none =>
    (.ok { success := false, message := "Tutulmuş koltuk bulunamadı" },
     st, apiSt, [])
  | some seat =>
    let dRes := deallocateSeat apiSt seat.trainCarId seat.allocationId
      seat.seatNumber outcome
    match dRes.1 with
    | .ok _ =>
      (.ok { success := true, message := "Koltuk başarıyla serbest bırakıldı" },
       { allocatedSeat := none }, dRes.2.1, dRes.2.2)
    | .error e =>
      (.ok { success := false, message := "Hata: " ++ e.message },
       st, dRes.2.1, dRes.2.2)

/-!  search.js — the Search Loop Controller. -/

/-- The mutable state of the SearchManager singleton. -/
structure SearchState where
  isSearching : Bool
  searchInterval : Option Nat
  isFirstRequest : Bool
deriving DecidableEq

/-- The combined in-memory state touched by the controller: the search
loop state and the Allocation Tracker state. -/
structure AppState where
  search : SearchState
  alloc : AllocState
deriving DecidableEq

/-- search.js SearchManager.stopSearch: no-op unless searching;
otherwise clears the searching flag, cancels the interval timer when one
is armed, stops the music and surfaces the stopped status.  It never
touches the Allocation Tracker. -/
def stopSearch (app : AppState) : AppState × List Ev :=
  if !app.search.isSearching then (app, [])
  else
    let clearEvs :=
      match app.search.searchInterval with
      | some handle => [Ev.clearSearchInterval handle]
      | none => []
    ({ app with search := { app.search with isSearching := false, searchInterval := none } },
     Ev.setSearchingState false :: clearEvs ++
       [Ev.stopMusic, Ev.status "Arama durduruldu." "waiting"])

theorem stopSearch_alloc (app : AppState) : (stopSearch app).1.alloc = app.alloc := by
  rw [stopSearch]
  rcases app.search.isSearching with _ | _ <;>
    rcases app.search.searchInterval with _ | h <;> rfl

theorem stopSearch_no_net (app : AppState) (c : NetCall) :
    Ev.net c ∉ (stopSearch app).2 := by
  rw [stopSearch]
  rcases hs : app.search.isSearching with _ | _ <;>
    rcases hi : app.search.searchInterval with _ | h <;> simp [hs, hi]

/-- search.js SearchManager.handleTicketsFound: recounts the available
seats of the result, and when positive stops the search, plays the
alert, and attempts the automatic allocation of the first candidate
unless the tracker already holds a seat (in that case it only logs the
informational message); when the recount is zero it stays searching and
surfaces the sold-out status.  The current wall-clock string of
getCurrentTime is the parameter now. -/
def handleTicketsFound (app : AppState) (apiSt : APIState)
    (result : SearchResult) (params : SearchParams)
    (seatMapOutcome : FetchOutcome SeatMapData)
    (allocateOutcome : FetchOutcome AllocResponse) (now : String) :
    AppState × APIState × List Ev :=
  let actualSeats := actualAvailableSeats result.trains
  if actualSeats > 0 then
    let foundEvs :=
      [Ev.status ("✅ YER BULUNDU! " ++ toString actualSeats ++ " yer mevcut")
        "found",
       Ev.logMsg ("🎉 KOLTUK BULUNDU: " ++ toString actualSeats ++ " yer (" ++
         now ++ ")")]
    let stopRes := stopSearch app
    let app1 := stopRes.1
    let stopEvs := stopRes.2
    if !(hasAllocatedSeat app1.alloc) then
      match result.trains.head? with
      | none =>
        (app1, apiSt,
         foundEvs ++ stopEvs ++ [Ev.playAlert, Ev.displayResults result.trains])
      | some targetTrain =>
        let preLog := Ev.logMsg ("🎫 Otomatik koltuk tutuluyor... (" ++
          jsShowOptStr targetTrain.name ++ ")")
        let acRes := checkAndAllocateFirstSeat app1.alloc targetTrain params
          apiSt seatMapOutcome allocateOutcome
        let resultEvs :=
          if acRes.1.success then
            [Ev.logMsg ("✅ BAŞARILI: " ++ acRes.1.message), Ev.showAllocatedSeat]
          else [Ev.logMsg ("⚠️ Koltuk tutulamadı: " ++ acRes.1.message)]
        ({ app1 with alloc := acRes.2.1 }, acRes.2.2.1,
         foundEvs ++ stopEvs ++ [Ev.playAlert, preLog] ++ acRes.2.2.2 ++
           resultEvs ++ [Ev.displayResults result.trains])
    else
      (app1, apiSt,
       foundEvs ++ stopEvs ++
         [Ev.playAlert, Ev.logMsg "ℹ️ Zaten tutulmuş bir koltuk var.",
          Ev.displayResults result.trains])
  else
    (app, apiSt,
     [Ev.status (toString result.trains.length ++
        " sefer bulundu ancak seçtiğiniz sınıflarda koltuk TÜKENDI. Arama devam ediyor...")
        "searching",
      Ev.logMsg ("⚠️ " ++ toString result.trains.length ++
        " sefer var ama seçili sınıflarda tükendi (" ++ now ++ ")"),
      Ev.displayResults result.trains])

/-- A held allocation used in concrete scenarios. -/
def heldSeat : AllocatedSeat :=
  { trainName := some "YHT 8001"
    trainId := 1
    departureTime := "08:30"
    arrivalTime := "10:00"
    seatNumber := "1A"
    trainCarId := 55
    carName := some "Vagon 1"
    wagonNumber := "1"
    cabinClassName := "Ekonomi Sınıfı"
    allocationId := 777
    lockFor := 10 }

/-- A tracker state already holding heldSeat. -/
def heldState : AllocState := { allocatedSeat := some heldSeat }

/-- A seat-map response with one free economy seat 5A. -/
def freeSeatMapData : SeatMapData :=
  { seatMaps :=
      some [{ trainCarId := 100
              seatMapTemplate :=
                some { car := some ⟨1, some "Vagon 1"⟩
                       seatMaps :=
                         some [{ item := some ⟨7, true, 2⟩, seatNumber := some "5A" }]
                       description := some "YHT CAF 1. VAGON EKONOMI"
                       name := none }
              allocationSeats := some [] }] }

/-- C2 (counterexample): with an allocation already held,
checkAndAllocateFirstSeat itself still proceeds — it issues network
calls, succeeds, and overwrites the stored allocation — because the
already-held guard is not inside this method. -/
theorem tracker_allocate_guard_counterexample :
    hasAllocatedSeat heldState = true ∧
    (checkAndAllocateFirstSeat heldState availTrainInfo params0 ⟨false⟩
      (.ok freeSeatMapData) (.ok ⟨some 999, some 10⟩)).1.success = true ∧
    (checkAndAllocateFirstSeat heldState availTrainInfo params0 ⟨false⟩
      (.ok freeSeatMapData) (.ok ⟨some 999, some 10⟩)).2.1 ≠ heldState ∧
    (checkAndAllocateFirstSeat heldState availTrainInfo params0 ⟨false⟩
      (.ok freeSeatMapData) (.ok ⟨some 999, some 10⟩)).2.2.2 ≠ ([] : List Ev) := by
  decide

/-- C2 (amended): the already-held refusal lives in the caller
handleTicketsFound — with an allocation held it leaves the tracker
unchanged, issues no network call, and surfaces the informational
message when the recount is positive — while checkAndAllocateFirstSeat
itself has no guard: its result is independent of the stored allocation
and it always begins by issuing the seat-map request. -/
theorem tracker_allocate_guard_amended :
    (∀ app apiSt result params smo alo now a,
       app.alloc.allocatedSeat = some a →
       (handleTicketsFound app apiSt result params smo alo now).1.alloc =
         app.alloc ∧
       (∀ c, Ev.net c ∉
         (handleTicketsFound app apiSt result params smo alo now).2.2) ∧
       (actualAvailableSeats result.trains > 0 →
         Ev.logMsg "ℹ️ Zaten tutulmuş bir koltuk var." ∈
           (handleTicketsFound app apiSt result params smo alo now).2.2)) ∧
    (∀ st st' : AllocState, ∀ ti sp apiSt smo alo,
       (checkAndAllocateFirstSeat st ti sp apiSt smo alo).1 =
         (checkAndAllocateFirstSeat st' ti sp apiSt smo alo).1 ∧
       (checkAndAllocateFirstSeat st ti sp apiSt smo alo).2.2.2.head? =
         some (Ev.net (.seatMap ti.trainId sp.departureStationId
           sp.arrivalStationId))) := by
  constructor
  · intro app apiSt result params smo alo now a ha
    have halloc : (stopSearch app).1.alloc = app.alloc := stopSearch_alloc app
    by_cases hpos : actualAvailableSeats result.trains > 0
    · have hheld : hasAllocatedSeat (stopSearch app).1.alloc = true := by
        rw [halloc, hasAllocatedSeat, ha]
        rfl
      have hred : handleTicketsFound app apiSt result params smo alo now =
          ((stopSearch app).1, apiSt,
           [Ev.status ("✅ YER BULUNDU! " ++
              toString (actualAvailableSeats result.trains) ++ " yer mevcut")
              "found",
            Ev.logMsg ("🎉 KOLTUK BULUNDU: " ++
              toString (actualAvailableSeats result.trains) ++ " yer (" ++
              now ++ ")")] ++
           (stopSearch app).2 ++
           [Ev.playAlert, Ev.logMsg "ℹ️ Zaten tutulmuş bir koltuk var.",
            Ev.displayResults result.trains]) := by
        rw [handleTicketsFound]
        dsimp only
        rw [if_pos hpos, hheld]
        rfl
      rw [hred]
      refine ⟨halloc, ?_, ?_⟩
      · intro c hmem
        simp at hmem
        exact stopSearch_no_net app c hmem
      · intro _
        simp
    · have hred : handleTicketsFound app apiSt result params smo alo now =
          (app, apiSt,
           [Ev.status (toString result.trains.length ++
              " sefer bulundu ancak seçtiğiniz sınıflarda koltuk TÜKENDI. Arama devam ediyor...")
              "searching",
            Ev.logMsg ("⚠️ " ++ toString result.trains.length ++
              " sefer var ama seçili sınıflarda tükendi (" ++ now ++ ")"),
            Ev.displayResults result.trains]) := by
        rw [handleTicketsFound]
        dsimp only
        rw [if_neg hpos]
      rw [hred]
      exact ⟨rfl, by intro c; simp, fun h => absurd h hpos⟩
  · intro st st' ti sp apiSt smo alo
    rw [checkAndAllocateFirstSeat, checkAndAllocateFirstSeat]
    dsimp only
    rcases smo with data | code | msg
    · dsimp only [checkSeatMap]
      rcases hms : data.seatMaps with _ | seatMaps
      · exact ⟨rfl, rfl⟩
      · dsimp only
        rcases hfs : findFirstAvailableSeat seatMaps sp.selectedCabinClasses
          with _ | seatToAllocate
        · exact ⟨rfl, rfl⟩
        · dsimp only
          rcases alo with adata | acode | amsg
          · dsimp only [allocateSeat]
            rcases hid : adata.allocationId with _ | allocId
            · exact ⟨rfl, rfl⟩
            · dsimp only
              by_cases hz : allocId = 0
              · rw [if_pos hz, if_pos hz]
                exact ⟨rfl, rfl⟩
              · rw [if_neg hz, if_neg hz]
                exact ⟨rfl, rfl⟩
          · exact ⟨rfl, rfl⟩
          · exact ⟨rfl, rfl⟩
    · exact ⟨rfl, rfl⟩
    · exact ⟨rfl, rfl⟩

/-- A searching app state holding heldSeat. -/
def heldApp : AppState :=
  { search := { isSearching := true, searchInterval := some 5, isFirstRequest := false }
    alloc := heldState }

/-- A found result with one available candidate. -/
def foundResult : SearchResult :=
  { found := true, trains := [availTrainInfo], totalSeats := 3 }

/-- Witness for C2 (amended): with heldSeat stored, handleTicketsFound
keeps the tracker unchanged. -/
theorem tracker_allocate_guard_amended_witness :
    (handleTicketsFound heldApp ⟨false⟩ foundResult params0
      (.ok freeSeatMapData) (.ok ⟨some 999, some 10⟩) "12:00:00").1.alloc =
      heldApp.alloc :=
  ((tracker_allocate_guard_amended).1 heldApp ⟨false⟩ foundResult params0
    (.ok freeSeatMapData) (.ok ⟨some 999, some 10⟩) "12:00:00" heldSeat rfl).1

/-- C4 (counterexample): on a transport failure of the release call,
releaseSeat catches the thrown error and returns an ordinary
success=false result to its caller — it does not propagate the error —
while the stored allocation stays populated. -/
theorem releaseSeat_transport_counterexample :
    (releaseSeat heldState ⟨false⟩ (.httpError 500)).1 =
      Except.ok ⟨false, "Hata: HTTP 500: Deallocation request failed"⟩ ∧
    (∀ e, (releaseSeat heldState ⟨false⟩ (.httpError 500)).1 ≠ Except.error e) ∧
    (releaseSeat heldState ⟨false⟩ (.httpError 500)).2.1 = heldState := by
  refine ⟨rfl, ?_, rfl⟩
  intro e h
  simp [releaseSeat, deallocateSeat, heldState] at h

/-- C4 (amended): releaseSeat on an empty tracker returns success=false
with no network call; on deallocate success it clears the slot and
returns success=true; on transport failure it returns (never throws) a
success=false result carrying the error message and leaves the slot
populated. -/
theorem releaseSeat_contract (st : AllocState) (apiSt : APIState)
    (outcome : FetchOutcome Unit) :
    (st.allocatedSeat = none →
       releaseSeat st apiSt outcome =
         (.ok { success := false, message := "Tutulmuş koltuk bulunamadı" },
          st, apiSt, [])) ∧
    (∀ seat, st.allocatedSeat = some seat →
       (∀ u, outcome = .ok u →
          (releaseSeat st apiSt outcome).1 =
            .ok { success := true, message := "Koltuk başarıyla serbest bırakıldı" } ∧
          (releaseSeat st apiSt outcome).2.1.allocatedSeat = none) ∧
       (∀ e, (deallocateSeat apiSt seat.trainCarId seat.allocationId
            seat.seatNumber outcome).1 = .error e →
          (releaseSeat st apiSt outcome).1 =
            .ok { success := false, message := "Hata: " ++ e.message } ∧
          (releaseSeat st apiSt outcome).2.1 = st ∧
          (∀ e2, (releaseSeat st apiSt outcome).1 ≠ Except.error e2)) ∧
       (releaseSeat st apiSt outcome).2.2.2 =
         [Ev.net (.deallocate seat.trainCarId seat.allocationId
           seat.seatNumber)]) := by
  constructor
  · intro h
    rw [releaseSeat, h]
  · intro seat hseat
    refine ⟨?_, ?_, ?_⟩
    · rintro u rfl
      rw [releaseSeat, hseat]
      exact ⟨rfl, rfl⟩
    · intro e he
      rw [releaseSeat, hseat]
      rcases outcome with u | code | msg
      · simp [deallocateSeat] at he
      · have he' : e =
            (⟨"HTTP " ++ toString code ++ ": Deallocation request failed"⟩ : JsError) := by
          have h2 := he
          simp only [deallocateSeat] at h2
          exact (Except.error.inj h2).symm
        subst he'
        exact ⟨rfl, rfl, fun e2 => by simp [deallocateSeat]⟩
      · have he' : e = (⟨msg⟩ : JsError) := by
          have h2 := he
          simp only [deallocateSeat] at h2
          exact (Except.error.inj h2).symm
        subst he'
        exact ⟨rfl, rfl, fun e2 => by simp [deallocateSeat]⟩
    · rw [releaseSeat, hseat]
      rcases outcome with u | code | msg <;> rfl

/-- Witness for C4 at the empty tracker and the held tracker with both
deallocate outcomes. -/
theorem releaseSeat_contract_witness :
    releaseSeat ⟨none⟩ ⟨false⟩ (.ok ()) =
      (.ok { success := false, message := "Tutulmuş koltuk bulunamadı" },
       ⟨none⟩, ⟨false⟩, []) ∧
    (releaseSeat heldState ⟨false⟩ (.ok ())).2.1.allocatedSeat = none ∧
    (releaseSeat heldState ⟨false⟩ (.httpError 500)).2.1 = heldState :=
  ⟨(releaseSeat_contract ⟨none⟩ ⟨false⟩ (.ok ())).1 rfl,
   (((releaseSeat_contract heldState ⟨false⟩ (.ok ())).2 heldSeat rfl).1 () rfl).2,
   (((releaseSeat_contract heldState ⟨false⟩ (.httpError 500)).2 heldSeat rfl).2.1
     ⟨"HTTP 500: Deallocation request failed"⟩ rfl).2.1⟩

/-- C7: stopSearch leaves the stored allocation unchanged and issues no
network call (in particular it never releases a held seat); from a
searching state it clears the searching flag and cancels the armed
timer; from a non-searching state it changes nothing and has no effect. -/
theorem stopSearch_frame (app : AppState) :
    (stopSearch app).1.alloc = app.alloc ∧
    (∀ c, Ev.net c ∉ (stopSearch app).2) ∧
    (app.search.isSearching = true →
       (stopSearch app).1.search.isSearching = false ∧
       (stopSearch app).1.search.searchInterval = none ∧
       (∀ handle, app.search.searchInterval = some handle →
          Ev.clearSearchInterval handle ∈ (stopSearch app).2)) ∧
    (app.search.isSearching = false → stopSearch app = (app, [])) := by
  refine ⟨stopSearch_alloc app, stopSearch_no_net app, ?_, ?_⟩
  · intro h
    rw [stopSearch]
    simp only [h, Bool.not_true, Bool.false_eq_true, if_false]
    refine ⟨by trivial, by trivial, ?_⟩
    intro handle hh
    simp [hh]
  · intro h
    rw [stopSearch]
    simp [h]

/-- An idle app state (not searching, no timer) holding heldSeat. -/
def idleApp : AppState :=
  { search := { isSearching := false, searchInterval := none, isFirstRequest := true }
    alloc := heldState }

/-- Witness for C7 at a searching state with an armed timer and at an
idle state. -/
theorem stopSearch_frame_witness :
    (stopSearch heldApp).1.alloc = heldApp.alloc ∧
    (stopSearch heldApp).1.search.searchInterval = none ∧
    Ev.clearSearchInterval 5 ∈ (stopSearch heldApp).2 ∧
    stopSearch idleApp = (idleApp, []) :=
  ⟨(stopSearch_frame heldApp).1,
   ((stopSearch_frame heldApp).2.2.1 rfl).2.1,
   ((stopSearch_frame heldApp).2.2.1 rfl).2.2 5 rfl,
   (stopSearch_frame idleApp).2.2.2 rfl⟩
